import Mathlib

/-!
Verification of the favorites-synchronization logic of the shopify-fav-app
repository (routes `api.update-metafields-temp.jsx` (ADD),
the remove-metafields route, and `api.get-metafields.jsx` (READ-ALL)).

JavaScript strings are modelled as Lean `String`s; the character-level
helpers below are executable models of the JS string operations the
handlers use: `split("\n")`, `trim()`, the quote-stripping
`replace` with the anchored regex alternatives, `join("\n")` and
`includes(...)`.
-/

namespace ShopifyFav

/-- The two quote characters accepted by the quote-stripping regex in the
source. `Char.ofNat 39` is the single-quote character. -/
def isQuoteChar (c : Char) : Bool := (c == '"') || (c == Char.ofNat 39)

/-- The leading alternative of the quote-strip regex: drop one leading
quote character when present. -/
def dropHeadQuote : List Char → List Char
  | [] => []
  | c :: rest => if isQuoteChar c then rest else c :: rest

/-- The trailing alternative of the quote-strip regex: drop one trailing
quote character when present. -/
def dropLastQuote (l : List Char) : List Char :=
  match l.getLast? with
  | some c => if isQuoteChar c then l.dropLast else l
  | none => l

/-- JS quote-strip `replace` with the global anchored regex, at character
level: drops one leading quote character and one trailing quote character,
each independently when present (the two anchored alternatives match at
most once each and never overlap). -/
def stripQuotesL (l : List Char) : List Char :=
  dropLastQuote (dropHeadQuote l)

/-- JS `s.trim()` at character level (whitespace dropped from both ends;
`Char.isWhitespace` covers the ASCII whitespace the handlers meet). -/
def trimL (l : List Char) : List Char :=
  ((l.dropWhile Char.isWhitespace).reverse.dropWhile Char.isWhitespace).reverse

/-- The per-line normalisation both write paths apply to every decoded
line: trim, then strip the boundary quotes. -/
def normLineL (l : List Char) : List Char := stripQuotesL (trimL l)

/-- JS `s.split("\n")` at character level (an empty string yields one empty
piece; separators at the ends yield empty pieces). -/
def splitNl : List Char → List (List Char)
  | [] => [[]]
  | c :: rest =>
    if c = '\n' then [] :: splitNl rest
    else
      match splitNl rest with
      | [] => [[c]]
      | p :: ps => (c :: p) :: ps

/-- JS `arr.join("\n")` at character level. -/
def joinNl : List (List Char) → List Char
  | [] => []
  | [l] => l
  | l :: ls => l ++ '\n' :: joinNl ls

/-- The decoder both write paths apply to a stored raw value: split on
newline, trim each line, strip boundary quotes, drop the lines that end up
empty (`filter(Boolean)`); at character level. -/
def decodeL (l : List Char) : List (List Char) :=
  ((splitNl l).map normLineL).filter (fun h => !h.isEmpty)

/-- The decoder on strings. -/
def decode (s : String) : List String := (decodeL s.data).map String.mk

/-- The encoder: JS `handles.join("\n")`; no quoting added. -/
def encode (hs : List String) : String := String.mk (joinNl (hs.map String.data))

/-- One line through trim + quote-strip, on strings. -/
def normLine (s : String) : String := String.mk (normLineL s.data)

/-- The quote-strip `replace` on strings, without trim — applied once to a
whole incoming string value before it is split into lines. -/
def stripQuotes (s : String) : String := String.mk (stripQuotesL s.data)

/-- JS `Array.from(new Set(xs))`: deduplication keeping each element's
first occurrence, in first-seen order. -/
def dedupFirst (l : List String) : List String :=
  l.foldl (fun acc h => if acc.contains h then acc else acc ++ [h]) []

/-- Mathematical statement of first-seen deduplication (keep the head,
erase its later duplicates, recurse); used to state what `dedupFirst`
computes. -/
def dedupeFirstSeen : List String → List String
  | [] => []
  | a :: l => a :: dedupeFirstSeen (l.filter (fun b => b != a))
termination_by l => l.length
decreasing_by
  simp only [List.length_cons]
  exact Nat.lt_succ_of_le (List.length_filter_le _ _)

/-- JS `s.includes(pat)` at character level. -/
def hasSubstr (pat : List Char) : List Char → Bool
  | [] => pat.isEmpty
  | c :: rest => pat.isPrefixOf (c :: rest) || hasSubstr pat rest

/-- The diagnostic READ-ALL decode of the stored value:
`value.split("\n").filter(Boolean)` — no trim, no quote stripping. -/
def getFavoriteProducts (v : String) : List String :=
  ((splitNl v.data).map String.mk).filter (fun h => h != "")

/-- A top-level GraphQL error as the handlers inspect it: the optional
`extensions.code` and the `message`. -/
structure GraphQLError where
  code : Option String
  message : String
deriving DecidableEq

/-- The predicate both handlers use to spot the protected-customer-data
denial: `extensions?.code === "ACCESS_DENIED" &&
message.includes("protected customer data")`. -/
def isProtectedDataError (e : GraphQLError) : Bool :=
  (e.code == some "ACCESS_DENIED") &&
    hasSubstr "protected customer data".data e.message.data

/-- The handlers' scan of a store response's optional top-level error list:
when the `errors` field is present, `errors.find(...)` with the
protected-data predicate; `none` models an absent `errors` field. -/
def findAccessDenied (errs : Option (List GraphQLError)) : Option GraphQLError :=
  errs.bind (fun l => l.find? isProtectedDataError)

/-- The stored metafield as returned by the read query
(`data.customer.metafield`): its id and its optional scalar value. -/
structure StoredMetafield where
  id : String
  value : Option String
deriving DecidableEq

/-- Outcome of the read query against the store. -/
inductive ReadOutcome where
  /-- The read fetch or its JSON parse throws (transport failure or
  malformed body); the exception reaches the handler's outer catch. -/
  | throws
  /-- A JSON body was obtained: the optional top-level `errors` array and
  the optional metafield. -/
  | ok (errors : Option (List GraphQLError)) (metafield : Option StoredMetafield)
deriving DecidableEq

/-- Outcome of the write mutation call. -/
inductive WriteOutcome where
  /-- The mutation fetch throws, returns a non-OK HTTP status (the code
  checks `response.ok` and throws), or its body fails to parse — all three
  reach the outer catch. -/
  | throws
  /-- A JSON body was obtained: the optional top-level `errors` array and
  the mutation-level `userErrors` list. -/
  | ok (errors : Option (List GraphQLError)) (userErrors : List String)
deriving DecidableEq

/-- Outcome of the best-effort verification re-read. The code never checks
this response's HTTP status, so a non-OK status with a parseable body does
not throw; `fetchThrows`, or a body whose JSON parse fails, throws. -/
inductive VerifyOutcome where
  | fetchThrows
  | body (httpOk : Bool) (jsonValid : Bool)
deriving DecidableEq

/-- Whether the verification step raises an exception: only a failed fetch
or a malformed JSON body do; the HTTP status is never consulted. -/
def VerifyOutcome.raises : VerifyOutcome → Bool
  | .fetchThrows => true
  | .body _ jsonValid => !jsonValid

/-- The structured JSON response, restricted to the fields the claims
inspect; fields a given response does not carry are `none`. -/
structure ApiResponse where
  success : Bool
  status : Nat := 200
  error : Option String := none
  message : Option String := none
  currentFavorites : Option (List String) := none
  existingFavoritesCount : Option Nat := none
  newFavoritesAdded : Option Nat := none
  totalFavoritesCount : Option Nat := none
  allFavorites : Option (List String) := none
  removedProductHandle : Option String := none
  previousFavoritesCount : Option Nat := none
  currentFavoritesCount : Option Nat := none
  remainingFavorites : Option (List String) := none
  deleted : Option Bool := none
deriving DecidableEq

/-- A store mutation the handler issues: either the set-mutation carrying
the joined value string, or the delete-mutation carrying the field id. -/
inductive StoreMutation where
  | setFavorites (value : String)
  | deleteField (id : String)
deriving DecidableEq

/-- Trace of the GraphQL calls a handler run performed. `mutation` is
`none` exactly when no write mutation was attempted. -/
structure Trace where
  readCalled : Bool := false
  mutation : Option StoreMutation := none
  verifyCalled : Bool := false
deriving DecidableEq

/-- A thrown error as the outer catch reports it:
`{ success: false, error }` with HTTP status 500. -/
def thrownResponse (msg : String) : ApiResponse :=
  { success := false, status := 500, error := some msg }

/-- The fixed access-policy response both handlers return when the
protected-data denial is detected: success false, HTTP 403, the fixed
error string and remediation message. -/
def accessPolicyResponse : ApiResponse :=
  { success := false, status := 403,
    error := some "Protected Customer Data Access Required",
    message := some "This app needs to be approved for protected customer data access to manage customer metafields. Please apply for this access in your Shopify Partner Dashboard." }

/-- JS truthiness of an optional string field (`undefined` and the empty
string are falsy). -/
def truthyS : Option String → Bool
  | none => false
  | some s => s != ""

/-- An incoming metafield value: the handler accepts a string (possibly
multi-line or quoted) or an array of strings. Other JSON types fall into a
stringification branch no claim exercises and are not modelled. -/
inductive MetaValue where
  | str (s : String)
  | arr (xs : List String)
deriving DecidableEq

/-- JS truthiness of a metafield value (an empty string is falsy, an array
is always truthy). -/
def MetaValue.truthy : MetaValue → Bool
  | .str s => s != ""
  | .arr _ => true

/-- One entry of the request's `metafields` array. The optional `namespace`
field only selects the namespace string used in the store calls and is not
modelled (no claim mentions it). -/
structure MetafieldInput where
  key : String
  value : Option MetaValue := none
deriving DecidableEq

/-- The candidate handles one request metafield contributes: only entries
with key `favorite_products` and a truthy value contribute; a string value
is quote-stripped once, then split/trimmed/stripped/filtered like a stored
value; an array value has each element trimmed and quote-stripped, empties
dropped. -/
def candidatesOf (m : MetafieldInput) : List String :=
  match m.value with
  | none => []
  | some v =>
    if (m.key == "favorite_products") && v.truthy then
      match v with
      | .str s => decode (stripQuotes s)
      | .arr xs => (xs.map normLine).filter (fun h => h != "")
    else []

/-- The ADD request body (`api.update-metafields-temp.jsx`): `metafields`
is `none` when absent or not an array. -/
structure AddRequest where
  customerId : Option String := none
  shop : Option String := none
  metafields : Option (List MetafieldInput) := none
deriving DecidableEq

/-- The current decoded list the ADD path derives from the read result:
`existingMetafield?.value` must be truthy, else the list stays empty. -/
def currentOf (mf : Option StoredMetafield) : List String :=
  match mf with
  | some m =>
    match m.value with
    | some v => if v != "" then decode v else []
    | none => []
  | none => []

/-- The ADD handler (`action` of `api.update-metafields-temp.jsx`),
modelled over the request body, the session lookup result, and the three
store-call outcomes. Returns the structured response together with the
trace of store calls. The thrown-error messages match the source up to the
interpolated fragments. -/
def addAction (req : AddRequest) (hasSession : Bool) (read : ReadOutcome)
    (write : WriteOutcome) (verify : VerifyOutcome) : ApiResponse × Trace :=
  if !truthyS req.customerId then
    (thrownResponse "Missing required field: customerId", {})
  else if !truthyS req.shop then
    (thrownResponse "Missing required field: shop", {})
  else
    match req.metafields with
    | none => (thrownResponse "metafields must be a non-empty array", {})
    | some mfs =>
      if mfs.isEmpty then (thrownResponse "metafields must be a non-empty array", {})
      else if !hasSession then (thrownResponse "No active session found for shop", {})
      else
        match read with
        | .throws => (thrownResponse "read request failed", { readCalled := true })
        | .ok errs mf =>
          let tr : Trace := { readCalled := true }
          if (findAccessDenied errs).isSome then (accessPolicyResponse, tr)
          else
            let current := currentOf mf
            let allNew := mfs.flatMap candidatesOf
            let merged := dedupFirst (current ++ allNew)
            if merged.isEmpty then
              ({ success := false, status := 400,
                 error := some "No valid product handles found after processing" }, tr)
            else
              let tr1 : Trace :=
                { tr with mutation := some (.setFavorites (encode merged)) }
              match write with
              | .throws => (thrownResponse "GraphQL request failed", tr1)
              | .ok werrs userErrors =>
                if (findAccessDenied werrs).isSome then (accessPolicyResponse, tr1)
                else if werrs.isSome then ({ success := false, status := 400 }, tr1)
                else if !userErrors.isEmpty then
                  ({ success := false, status := 400 }, tr1)
                else
                  let tr2 : Trace := { tr1 with verifyCalled := true }
                  if verify.raises then (thrownResponse "verify request failed", tr2)
                  else
                    ({ success := true, status := 200,
                       existingFavoritesCount := some current.length,
                       newFavoritesAdded := some allNew.length,
                       totalFavoritesCount := some merged.length,
                       allFavorites := some merged }, tr2)

/-- The REMOVE request body. -/
structure RemoveRequest where
  customerId : Option String := none
  productHandle : Option String := none
  shop : Option String := none
deriving DecidableEq

/-- The REMOVE handler (`action` of the remove-metafields route), modelled
like `addAction`. When the remaining list is empty the delete-mutation is
issued with the field's id; otherwise the set-mutation with the joined
remaining list. -/
def removeAction (req : RemoveRequest) (hasSession : Bool) (read : ReadOutcome)
    (write : WriteOutcome) (verify : VerifyOutcome) : ApiResponse × Trace :=
  if !truthyS req.customerId then
    (thrownResponse "Missing required field: customerId", {})
  else if !truthyS req.productHandle then
    (thrownResponse "Missing required field: productHandle", {})
  else if !truthyS req.shop then
    (thrownResponse "Missing required field: shop", {})
  else if !hasSession then (thrownResponse "No active session found for shop", {})
  else
    match read with
    | .throws => (thrownResponse "read request failed", { readCalled := true })
    | .ok errs mf =>
      let tr : Trace := { readCalled := true }
      if (findAccessDenied errs).isSome then (accessPolicyResponse, tr)
      else
        match mf with
        | none =>
          ({ success := false, status := 404,
             error := some "No favorite products found for this customer" }, tr)
        | some m =>
          match m.value with
          | none =>
            ({ success := false, status := 404,
               error := some "No favorite products found for this customer" }, tr)
          | some v =>
            if v == "" then
              ({ success := false, status := 404,
                 error := some "No favorite products found for this customer" }, tr)
            else
              let handle := req.productHandle.getD ""
              let current := decode v
              if !current.contains handle then
                ({ success := false, status := 404,
                   error := some "Product handle not found in favorites",
                   currentFavorites := some current }, tr)
              else
                let updated := current.filter (fun h => h != handle)
                let mtn : StoreMutation :=
                  if updated.isEmpty then .deleteField m.id
                  else .setFavorites (encode updated)
                let tr1 : Trace := { tr with mutation := some mtn }
                match write with
                | .throws => (thrownResponse "GraphQL request failed", tr1)
                | .ok werrs userErrors =>
                  if (findAccessDenied werrs).isSome then (accessPolicyResponse, tr1)
                  else if werrs.isSome then
                    ({ success := false, status := 400 }, tr1)
                  else if !userErrors.isEmpty then
                    ({ success := false, status := 400 }, tr1)
                  else
                    let tr2 : Trace := { tr1 with verifyCalled := true }
                    if verify.raises then
                      (thrownResponse "verify request failed", tr2)
                    else
                      ({ success := true, status := 200,
                         removedProductHandle := some handle,
                         previousFavoritesCount := some current.length,
                         currentFavoritesCount := some updated.length,
                         remainingFavorites := some updated,
                         deleted := some updated.isEmpty }, tr2)

/-! Concrete instances used in witnesses and counterexamples. -/

/-- A protected-customer-data denial as the store reports it. -/
def exAdErr : GraphQLError :=
  { code := some "ACCESS_DENIED",
    message := "This app is not approved to access the protected customer data fields" }

/-- An unrelated store error. -/
def exOtherErr : GraphQLError := { code := some "THROTTLED", message := "Throttled" }

def exMfA : MetafieldInput := { key := "favorite_products", value := some (.str "a") }

def exMfWs : MetafieldInput := { key := "favorite_products", value := some (.str "  ") }

def exAddReqA : AddRequest :=
  { customerId := some "gid-1", shop := some "demo", metafields := some [exMfA] }

def exAddReqWs : AddRequest :=
  { customerId := some "gid-1", shop := some "demo", metafields := some [exMfWs] }

def exAddReqNoCust : AddRequest := { shop := some "demo", metafields := some [exMfA] }

def exRemReq (h : String) : RemoveRequest :=
  { customerId := some "gid-1", productHandle := some h, shop := some "demo" }

def exRemReqNoHandle : RemoveRequest :=
  { customerId := some "gid-1", shop := some "demo" }

def exStoredA : StoredMetafield := { id := "mf-1", value := some "a" }

def exStoredABC : StoredMetafield := { id := "mf-1", value := some "a\nb\nc" }

def exReadA : ReadOutcome := .ok none (some exStoredA)

def exReadABC : ReadOutcome := .ok none (some exStoredABC)

def exMfBC : MetafieldInput :=
  { key := "favorite_products", value := some (.str "b\nc") }

def exAddReqBC : AddRequest :=
  { customerId := some "gid-1", shop := some "demo", metafields := some [exMfBC] }

def exStoredAB : StoredMetafield := { id := "mf-1", value := some "a\nb" }

def exReadAB : ReadOutcome := .ok none (some exStoredAB)

def exWriteOk : WriteOutcome := .ok none []

def exVerifyOk : VerifyOutcome := .body true true

/-- A well-formed ADD request body. -/
def mkAddReq (cid shop : String) (mfs : List MetafieldInput) : AddRequest :=
  { customerId := some cid, shop := some shop, metafields := some mfs }

/-- A well-formed REMOVE request body. -/
def mkRemReq (cid handle shop : String) : RemoveRequest :=
  { customerId := some cid, productHandle := some handle, shop := some shop }

/-! Helper lemmas about the character-level codec. -/

theorem splitNl_ne_nil (l : List Char) : splitNl l ≠ [] := by
  induction l with
  | nil => simp [splitNl]
  | cons c rest ih =>
    simp only [splitNl]
    split
    · simp
    · cases h : splitNl rest with
      | nil => simp
      | cons p ps => simp

theorem nl_not_mem_of_mem_splitNl {l : List Char} {p : List Char}
    (hp : p ∈ splitNl l) : '\n' ∉ p := by
  induction l generalizing p with
  | nil =>
    simp [splitNl] at hp
    simp [hp]
  | cons c rest ih =>
    simp only [splitNl] at hp
    by_cases hc : c = '\n'
    · rw [if_pos hc] at hp
      rcases List.mem_cons.mp hp with h | h
      · simp [h]
      · exact ih h
    · rw [if_neg hc] at hp
      cases hrest : splitNl rest with
      | nil => exact absurd hrest (splitNl_ne_nil rest)
      | cons q qs =>
        rw [hrest] at hp
        rcases List.mem_cons.mp hp with h | h
        · subst h
          intro hmem
          rcases List.mem_cons.mp hmem with h | h
          · exact hc h.symm
          · exact ih (hrest ▸ List.mem_cons_self q qs) h
        · exact ih (hrest ▸ List.mem_cons_of_mem q h)

theorem splitNl_of_nl_not_mem {l : List Char} (h : '\n' ∉ l) :
    splitNl l = [l] := by
  induction l with
  | nil => simp [splitNl]
  | cons c rest ih =>
    have hc : c ≠ '\n' := fun hc => h (hc ▸ List.mem_cons_self c rest)
    have hrest : '\n' ∉ rest := fun hm => h (List.mem_cons_of_mem c hm)
    simp only [splitNl, if_neg (fun hcc => hc hcc), ih hrest]

theorem splitNl_append {a b : List Char} (ha : '\n' ∉ a) :
    splitNl (a ++ '\n' :: b) = a :: splitNl b := by
  induction a with
  | nil => simp [splitNl]
  | cons c a2 ih =>
    have hc : c ≠ '\n' := fun hc => ha (hc ▸ List.mem_cons_self c a2)
    have ha2 : '\n' ∉ a2 := fun hm => ha (List.mem_cons_of_mem c hm)
    simp only [List.cons_append, splitNl, if_neg (fun hcc => hc hcc),
      List.append_eq, ih ha2]

theorem splitNl_joinNl {ls : List (List Char)} (hne : ls ≠ [])
    (hnl : ∀ l ∈ ls, '\n' ∉ l) : splitNl (joinNl ls) = ls := by
  induction ls with
  | nil => exact absurd rfl hne
  | cons l ls2 ih =>
    cases ls2 with
    | nil =>
      simp only [joinNl]
      exact splitNl_of_nl_not_mem (hnl l (List.mem_cons_self _ _))
    | cons l2 ls3 =>
      simp only [joinNl]
      rw [splitNl_append (hnl l (List.mem_cons_self _ _))]
      rw [ih (by simp) (fun q hq => hnl q (List.mem_cons_of_mem l hq))]

theorem mem_of_mem_trimL {c : Char} {l : List Char} (h : c ∈ trimL l) :
    c ∈ l := by
  simp only [trimL, List.mem_reverse] at h
  have h1 : c ∈ (l.dropWhile Char.isWhitespace).reverse :=
    (List.dropWhile_sublist _).mem h
  rw [List.mem_reverse] at h1
  exact (List.dropWhile_sublist _).mem h1

theorem dropHeadQuote_sublist (l : List Char) : List.Sublist (dropHeadQuote l) l := by
  cases l with
  | nil => exact List.Sublist.refl _
  | cons c rest =>
    simp only [dropHeadQuote]
    by_cases hq : isQuoteChar c
    · simp only [if_pos hq]
      exact List.sublist_cons_self c rest
    · simp only [if_neg hq]
      exact List.Sublist.refl _

theorem dropLastQuote_sublist (l : List Char) : List.Sublist (dropLastQuote l) l := by
  unfold dropLastQuote
  cases hl : l.getLast? with
  | none => exact List.Sublist.refl _
  | some d =>
    by_cases hq : isQuoteChar d
    · simp only [if_pos hq]
      exact List.dropLast_sublist l
    · simp only [if_neg hq]
      exact List.Sublist.refl _

theorem stripQuotesL_sublist (l : List Char) : List.Sublist (stripQuotesL l) l :=
  (dropLastQuote_sublist _).trans (dropHeadQuote_sublist l)

theorem mem_of_mem_stripQuotesL {c : Char} {l : List Char}
    (h : c ∈ stripQuotesL l) : c ∈ l :=
  (stripQuotesL_sublist l).mem h

theorem mem_of_mem_normLineL {c : Char} {l : List Char}
    (h : c ∈ normLineL l) : c ∈ l :=
  mem_of_mem_trimL (mem_of_mem_stripQuotesL h)

theorem mem_decodeL {x : List Char} {h : List Char} (hm : h ∈ decodeL x) :
    h ≠ [] ∧ '\n' ∉ h := by
  simp only [decodeL, List.mem_filter, List.mem_map] at hm
  obtain ⟨⟨p, hp, hph⟩, hne⟩ := hm
  constructor
  · simp only [Bool.not_eq_eq_eq_not, Bool.not_true, List.isEmpty_eq_false] at hne
    exact hne
  · intro hnlh
    rw [← hph] at hnlh
    exact nl_not_mem_of_mem_splitNl hp (mem_of_mem_normLineL hnlh)

theorem decodeL_nil : decodeL [] = [] := rfl

theorem decodeL_joinNl {x : List Char}
    (hfix : ∀ h ∈ decodeL x, normLineL h = h) :
    decodeL (joinNl (decodeL x)) = decodeL x := by
  by_cases hx : decodeL x = []
  · rw [hx]
    simp only [joinNl]
    exact decodeL_nil
  · have hnl : ∀ l ∈ decodeL x, '\n' ∉ l := fun l hl => (mem_decodeL hl).2
    have hne : ∀ l ∈ decodeL x, l ≠ [] := fun l hl => (mem_decodeL hl).1
    have h1 : splitNl (joinNl (decodeL x)) = decodeL x := splitNl_joinNl hx hnl
    have h2 : (decodeL x).map normLineL = decodeL x := by
      rw [List.map_congr_left hfix, List.map_id']
    calc decodeL (joinNl (decodeL x))
        = ((splitNl (joinNl (decodeL x))).map normLineL).filter
            (fun h => !h.isEmpty) := rfl
      _ = ((decodeL x).map normLineL).filter (fun h => !h.isEmpty) := by rw [h1]
      _ = (decodeL x).filter (fun h => !h.isEmpty) := by rw [h2]
      _ = decodeL x := List.filter_eq_self.mpr (fun a ha => by
            simp only [Bool.not_eq_eq_eq_not, Bool.not_true, List.isEmpty_eq_false]
            exact hne a ha)

/-! Helper lemmas about first-seen deduplication. -/

theorem dedupeFirstSeen_ne_nil (a : String) (l : List String) :
    dedupeFirstSeen (a :: l) ≠ [] := by
  rw [dedupeFirstSeen]
  simp

theorem contains_append_singleton (acc : List String) (a b : String) :
    (acc ++ [a]).contains b = (acc.contains b || b == a) := by
  by_cases hm : b ∈ acc <;> by_cases hba : b = a <;>
    simp [List.contains, List.elem_eq_mem, beq_eq_decide, hm, hba]

theorem dedupFirst_foldl (l : List String) :
    ∀ acc : List String,
      l.foldl (fun acc h => if acc.contains h then acc else acc ++ [h]) acc =
        acc ++ dedupeFirstSeen (l.filter (fun b => !acc.contains b)) := by
  induction l with
  | nil => intro acc; simp [dedupeFirstSeen]
  | cons a l ih =>
    intro acc
    by_cases ha : acc.contains a = true
    · simp only [List.foldl_cons, if_pos ha, List.filter_cons, ha,
        Bool.not_true]
      exact ih acc
    · have ha' : acc.contains a = false := Bool.eq_false_iff.mpr ha
      rw [List.foldl_cons, if_neg ha, ih (acc ++ [a]), List.filter_cons]
      simp only [ha', Bool.not_false, if_true]
      rw [dedupeFirstSeen, List.append_assoc, List.singleton_append,
        List.filter_filter]
      have hpt : List.filter (fun b => !(acc ++ [a]).contains b) l =
          List.filter (fun b => b != a && !acc.contains b) l :=
        List.filter_congr (fun b hb => by
          rw [contains_append_singleton]
          cases hcb : acc.contains b <;> cases hba : b == a <;>
            simp [hcb, hba, bne])
      rw [hpt]

theorem dedupFirst_eq_firstSeen (l : List String) :
    dedupFirst l = dedupeFirstSeen l := by
  unfold dedupFirst
  rw [dedupFirst_foldl l []]
  simp [List.contains]

theorem dedupFirst_eq_nil_iff (l : List String) :
    dedupFirst l = [] ↔ l = [] := by
  rw [dedupFirst_eq_firstSeen]
  constructor
  · intro h
    cases l with
    | nil => rfl
    | cons a t => exact absurd h (dedupeFirstSeen_ne_nil a t)
  · intro h
    rw [h, dedupeFirstSeen]

theorem findAccessDenied_none : findAccessDenied none = none := rfl

/-! Lifting the character-level codec results to strings. -/

theorem encode_data_eq (x : String) :
    (encode (decode x)).data = joinNl (decodeL x.data) := by
  show joinNl (((decodeL x.data).map String.mk).map String.data) = _
  rw [List.map_map]
  rw [show (String.data ∘ String.mk) = id from rfl, List.map_id]

theorem decode_idempotent_of_normalised (x : String)
    (hfix : ∀ h ∈ decode x, normLine h = h) :
    decode (encode (decode x)) = decode x := by
  have hfixL : ∀ h ∈ decodeL x.data, normLineL h = h := by
    intro h hm
    have hmem : String.mk h ∈ decode x := List.mem_map_of_mem String.mk hm
    have h2 : String.mk (normLineL h) = String.mk h := hfix (String.mk h) hmem
    exact congrArg String.data h2
  show (decodeL (encode (decode x)).data).map String.mk = decode x
  rw [encode_data_eq, decodeL_joinNl hfixL]
  rfl

/-! The claims. -/

/-- C2, counterexample: the decoder is not idempotent, even up to sets of
handles. On the raw value consisting of two double-quote characters and
the letter a, the first decode strips only one leading quote (the line has
no trailing quote), so re-decoding the encoded result strips one more:
the handle surviving the first decode is gone from the second. -/
theorem claim2_counterexample :
    ¬ (∀ h : String,
        h ∈ decode (encode (decode "\"\"a")) ↔ h ∈ decode "\"\"a") := by
  intro hall
  have h1 : "\"a" ∈ decode (encode (decode "\"\"a")) :=
    (hall "\"a").mpr (by decide)
  have h2 : ¬ ("\"a" ∈ decode (encode (decode "\"\"a"))) := by decide
  exact h2 h1

/-- C2, amended: `decode (encode (decode x)) = decode x` (even as lists,
hence as sets) for every input `x` whose decoded handles are already
normalised, i.e. each handle is unchanged by a further trim + boundary
quote strip. Malformed inputs that leave a stray boundary quote (or
quote-protected boundary whitespace) on a handle lose one more layer per
decode pass, as the counterexample shows. -/
theorem claim2_decode_idempotent_amended (x : String)
    (hfix : ∀ h ∈ decode x, normLine h = h) :
    decode (encode (decode x)) = decode x :=
  decode_idempotent_of_normalised x hfix

/-- Witness for the amended C2 at a concrete malformed (quoted, padded)
input whose decoded handles are nonetheless normalised. -/
theorem claim2_decode_idempotent_amended_witness :
    (∀ h ∈ decode "  \"shoe-1\"  \n\nshoe-2 ", normLine h = h) ∧
      decode (encode (decode "  \"shoe-1\"  \n\nshoe-2 ")) =
        decode "  \"shoe-1\"  \n\nshoe-2 " :=
  ⟨by decide, claim2_decode_idempotent_amended _ (by decide)⟩

/-- C8: the ADD path's merge (`Array.from(new Set([...current, ...new]))`,
modelled by `dedupFirst`) is exactly first-seen-order deduplication of
current concatenated with incoming, and on current `["a","b"]` with
incoming `["b","c"]` it yields `["a","b","c"]`; the third conjunct runs
the full ADD handler on a store holding `a\nb` with incoming `b\nc` and
observes the merged list in the response. -/
theorem claim8_add_merge_first_seen :
    (∀ current incoming : List String,
        dedupFirst (current ++ incoming) =
          dedupeFirstSeen (current ++ incoming)) ∧
    dedupFirst (["a", "b"] ++ ["b", "c"]) = ["a", "b", "c"] ∧
    (addAction exAddReqBC true exReadAB exWriteOk exVerifyOk).1.allFavorites =
      some ["a", "b", "c"] :=
  ⟨fun current incoming => dedupFirst_eq_firstSeen (current ++ incoming),
   by decide, by decide⟩

/-- C10: the diagnostic READ-ALL decode (split on newline and drop empty
strings only) disagrees with the write-path decode on stored values with
quoted or padded lines; witnessed by a quoted line, and stated as the
existence of a raw value the two decoders disagree on. -/
theorem claim10_readall_decode_differs :
    getFavoriteProducts "\"a\"" = ["\"a\""] ∧
    decode "\"a\"" = ["a"] ∧
    (∃ raw : String, getFavoriteProducts raw ≠ decode raw) := by
  refine ⟨by decide, by decide, ⟨"\"a\"", by decide⟩⟩

/-- C5, counterexample: a request missing a required field is answered
with HTTP 500, not 400 — the thrown validation error is caught by the
generic catch-all. Shown for an ADD missing customerId and a REMOVE
missing productHandle. -/
theorem claim5_counterexample :
    (addAction exAddReqNoCust true exReadA exWriteOk exVerifyOk).1.status = 500 ∧
    ¬ (addAction exAddReqNoCust true exReadA exWriteOk exVerifyOk).1.status = 400 ∧
    (removeAction exRemReqNoHandle true exReadA exWriteOk exVerifyOk).1.status = 500 := by
  refine ⟨by decide, by decide, by decide⟩

/-- C5, amended: a request missing a required input field (customerId,
shop, productHandle for REMOVE, or a non-empty metafields array for ADD)
is reported with success false and HTTP status 500 (the thrown validation
error reaches the generic handler), and no store call of any kind is made
(the returned trace is empty). -/
theorem claim5_missing_fields_amended :
    (∀ req hs read write verify, truthyS req.customerId = false →
        addAction req hs read write verify =
          (thrownResponse "Missing required field: customerId", {})) ∧
    (∀ req hs read write verify,
        truthyS req.customerId = true → truthyS req.shop = false →
        addAction req hs read write verify =
          (thrownResponse "Missing required field: shop", {})) ∧
    (∀ req hs read write verify,
        truthyS req.customerId = true → truthyS req.shop = true →
        (req.metafields = none ∨ req.metafields = some []) →
        addAction req hs read write verify =
          (thrownResponse "metafields must be a non-empty array", {})) ∧
    (∀ req hs read write verify, truthyS req.customerId = false →
        removeAction req hs read write verify =
          (thrownResponse "Missing required field: customerId", {})) ∧
    (∀ req hs read write verify,
        truthyS req.customerId = true → truthyS req.productHandle = false →
        removeAction req hs read write verify =
          (thrownResponse "Missing required field: productHandle", {})) ∧
    (∀ req hs read write verify,
        truthyS req.customerId = true → truthyS req.productHandle = true →
        truthyS req.shop = false →
        removeAction req hs read write verify =
          (thrownResponse "Missing required field: shop", {})) := by
  refine ⟨?_, ?_, ?_, ?_, ?_, ?_⟩
  · intro req hs read write verify h1
    simp [addAction, h1]
  · intro req hs read write verify h1 h2
    simp [addAction, h1, h2]
  · intro req hs read write verify h1 h2 h3
    rcases h3 with h3 | h3 <;> simp [addAction, h1, h2, h3]
  · intro req hs read write verify h1
    simp [removeAction, h1]
  · intro req hs read write verify h1 h2
    simp [removeAction, h1, h2]
  · intro req hs read write verify h1 h2 h3
    simp [removeAction, h1, h2, h3]

/-- Witness for the amended C5: the concrete ADD request missing
customerId is answered with the 500 thrown-error response and an empty
trace. -/
theorem claim5_missing_fields_amended_witness :
    truthyS exAddReqNoCust.customerId = false ∧
    addAction exAddReqNoCust true exReadA exWriteOk exVerifyOk =
      (thrownResponse "Missing required field: customerId", {}) :=
  ⟨by decide,
   claim5_missing_fields_amended.1 exAddReqNoCust true exReadA exWriteOk
     exVerifyOk (by decide)⟩

/-- C3, counterexample: an ADD whose incoming values decode to no handles
(whitespace-only) does NOT fail validation when the store already holds a
non-empty list: the handler issues the write mutation (re-writing the
current list) and reports success. The first conjunct records that the
incoming candidates decode to nothing. -/
theorem claim3_counterexample :
    (exAddReqWs.metafields.getD []).flatMap candidatesOf = [] ∧
    ¬ (addAction exAddReqWs true exReadA exWriteOk exVerifyOk).2.mutation = none ∧
    (addAction exAddReqWs true exReadA exWriteOk exVerifyOk).1.success = true := by
  refine ⟨by decide, by decide, by decide⟩

/-- C3, amended: the validation failure (HTTP 400, no write) triggers
exactly when the merged list is empty, i.e. when the store list decodes to
empty as well; with a non-empty stored list, an ADD whose incoming values
decode to no handles proceeds to the write mutation regardless. -/
theorem claim3_empty_add_amended (cid shop : String) (mfs : List MetafieldInput)
    (errs : Option (List GraphQLError)) (mf : Option StoredMetafield)
    (write : WriteOutcome) (verify : VerifyOutcome)
    (hcid : cid ≠ "") (hshop : shop ≠ "") (hmfs : mfs ≠ [])
    (hfad : findAccessDenied errs = none)
    (hinc : mfs.flatMap candidatesOf = []) :
    (currentOf mf = [] →
      addAction (mkAddReq cid shop mfs) true (.ok errs mf) write verify =
        ({ success := false, status := 400,
           error := some "No valid product handles found after processing" },
         { readCalled := true })) ∧
    (currentOf mf ≠ [] →
      (addAction (mkAddReq cid shop mfs) true (.ok errs mf) write verify).2.mutation =
        some (.setFavorites (encode (dedupFirst (currentOf mf))))) := by
  constructor
  · intro hcur
    simp [addAction, mkAddReq, truthyS, hcid, hshop, hmfs, hfad, hinc, hcur,
      dedupFirst]
  · intro hcur
    have hne : dedupFirst (currentOf mf) ≠ [] :=
      fun he => hcur ((dedupFirst_eq_nil_iff _).mp he)
    simp only [addAction, mkAddReq, truthyS, hinc]
    simp [hcid, hshop, hmfs, hfad, hne]
    cases write with
    | throws => rfl
    | ok werrs uerrs =>
      by_cases hw : (findAccessDenied werrs).isSome = true
      · simp [hw]
      · simp only [hw]
        by_cases hw2 : werrs.isSome = true
        · simp [hw, hw2]
        · by_cases hu : uerrs = []
          · simp [hw, hw2, hu]
            by_cases hv : verify.raises = true <;> simp [hv]
          · simp [hw, hw2, hu]

/-- Witness for the amended C3 at a concrete whitespace-only ADD against
an empty store: validation fails with 400 and no store write. -/
theorem claim3_empty_add_amended_witness :
    ("gid-1" : String) ≠ "" ∧ ("demo" : String) ≠ "" ∧
    ([exMfWs] : List MetafieldInput) ≠ [] ∧
    findAccessDenied none = none ∧
    ([exMfWs] : List MetafieldInput).flatMap candidatesOf = [] ∧
    (currentOf none = [] →
      addAction (mkAddReq "gid-1" "demo" [exMfWs]) true (.ok none none)
          exWriteOk exVerifyOk =
        ({ success := false, status := 400,
           error := some "No valid product handles found after processing" },
         { readCalled := true })) :=
  ⟨by decide, by decide, by decide, by decide, by decide,
   (claim3_empty_add_amended "gid-1" "demo" [exMfWs] none none exWriteOk
     exVerifyOk (by decide) (by decide) (by decide) (by decide) (by decide)).1⟩

/-- C4, counterexample: after a successful write (the mutation was issued
and the store reported no errors), a verification re-read whose fetch
throws turns the reported outcome into a 500 error response — the claim
that verification failure never changes the outcome is false. -/
theorem claim4_counterexample :
    ¬ (addAction exAddReqA true exReadA exWriteOk VerifyOutcome.fetchThrows).2.mutation
        = none ∧
    (addAction exAddReqA true exReadA exWriteOk VerifyOutcome.fetchThrows).1.success
        = false ∧
    (addAction exAddReqA true exReadA exWriteOk VerifyOutcome.fetchThrows).1.status
        = 500 := by
  refine ⟨by decide, by decide, by decide⟩

/-- C4, amended: after a successful write, a verification re-read that
still yields a parseable JSON body (even with a non-OK HTTP status, which
the code never checks) leaves the success outcome intact; but a
verification transport failure or malformed JSON body escapes to the
outer catch and the handler reports success false with HTTP 500 despite
the successful write. Stated for both the ADD and the REMOVE handler:
the reported success flag equals the negation of whether the verify step
throws. -/
theorem claim4_verify_failure_amended :
    (∀ (cid shop : String) (mfs : List MetafieldInput)
        (errs : Option (List GraphQLError)) (mf : Option StoredMetafield)
        (verify : VerifyOutcome), cid ≠ "" → shop ≠ "" → mfs ≠ [] →
        findAccessDenied errs = none →
        dedupFirst (currentOf mf ++ mfs.flatMap candidatesOf) ≠ [] →
        ((addAction (mkAddReq cid shop mfs) true (.ok errs mf)
              (.ok none []) verify).1.success = !verify.raises ∧
         (verify.raises = true →
           (addAction (mkAddReq cid shop mfs) true (.ok errs mf)
               (.ok none []) verify).1
             = thrownResponse "verify request failed"))) ∧
    (∀ (cid handle shop mid v : String)
        (errs : Option (List GraphQLError)) (verify : VerifyOutcome),
        cid ≠ "" → handle ≠ "" → shop ≠ "" →
        findAccessDenied errs = none → v ≠ "" →
        (decode v).contains handle = true →
        ((removeAction (mkRemReq cid handle shop) true
              (.ok errs (some { id := mid, value := some v }))
              (.ok none []) verify).1.success = !verify.raises ∧
         (verify.raises = true →
           (removeAction (mkRemReq cid handle shop) true
               (.ok errs (some { id := mid, value := some v }))
               (.ok none []) verify).1
             = thrownResponse "verify request failed"))) := by
  constructor
  · intro cid shop mfs errs mf verify hcid hshop hmfs hfad hmrg
    simp only [addAction, mkAddReq, truthyS]
    simp [hcid, hshop, hmfs, hfad, hmrg, findAccessDenied_none]
    by_cases hv : verify.raises = true <;> simp [hv, thrownResponse]
  · intro cid handle shop mid v errs verify hcid hhandle hshop hfad hv hmem
    simp only [removeAction, mkRemReq, truthyS]
    have hmem2 : handle ∈ decode v := by
      simpa [List.contains, List.elem_eq_mem] using hmem
    simp [hcid, hhandle, hshop, hfad, hv, hmem2, findAccessDenied_none]
    by_cases hv2 : verify.raises = true <;> simp [hv2, thrownResponse]

/-- Witness for the amended C4: a verify re-read answering with a non-OK
HTTP status but a parseable body leaves the ADD success outcome intact. -/
theorem claim4_verify_failure_amended_witness :
    ("gid-1" : String) ≠ "" ∧ ("demo" : String) ≠ "" ∧
    ([exMfA] : List MetafieldInput) ≠ [] ∧
    findAccessDenied none = none ∧
    dedupFirst (currentOf (some exStoredA) ++ [exMfA].flatMap candidatesOf) ≠ [] ∧
    (addAction (mkAddReq "gid-1" "demo" [exMfA]) true (.ok none (some exStoredA))
        (.ok none []) (.body false true)).1.success
      = !(VerifyOutcome.body false true).raises :=
  ⟨by decide, by decide, by decide, by decide, by decide,
   (claim4_verify_failure_amended.1 "gid-1" "demo" [exMfA] none (some exStoredA)
     (.body false true) (by decide) (by decide) (by decide) (by decide)
     (by decide)).1⟩

/-- C9, counterexample: the reported new-favorites count is the total
number of decoded incoming candidates, not the number of net-new ones.
Adding the handle a when the store already holds a reports
newFavoritesAdded = 1 although zero incoming candidates are absent from
the current list. -/
theorem claim9_counterexample :
    (addAction exAddReqA true exReadA exWriteOk exVerifyOk).1.newFavoritesAdded
      = some 1 ∧
    (((exAddReqA.metafields.getD []).flatMap candidatesOf).filter
        (fun h => !(currentOf (some exStoredA)).contains h)).length = 0 := by
  refine ⟨by decide, by decide⟩

/-- C9, amended: every successful ADD reports the count of handles before
(existingFavoritesCount), the count after (totalFavoritesCount), the full
merged list (allFavorites), and as newFavoritesAdded the TOTAL number of
decoded incoming candidates — counted with multiplicity and regardless of
whether they were already present — not the number of net-new ones. -/
theorem claim9_add_result_amended (cid shop : String)
    (mfs : List MetafieldInput) (errs : Option (List GraphQLError))
    (mf : Option StoredMetafield) (verify : VerifyOutcome)
    (hcid : cid ≠ "") (hshop : shop ≠ "") (hmfs : mfs ≠ [])
    (hfad : findAccessDenied errs = none)
    (hmrg : dedupFirst (currentOf mf ++ mfs.flatMap candidatesOf) ≠ [])
    (hvr : verify.raises = false) :
    (addAction (mkAddReq cid shop mfs) true (.ok errs mf) (.ok none []) verify).1
      = { success := true, status := 200,
          existingFavoritesCount := some (currentOf mf).length,
          newFavoritesAdded := some (mfs.flatMap candidatesOf).length,
          totalFavoritesCount :=
            some (dedupFirst (currentOf mf ++ mfs.flatMap candidatesOf)).length,
          allFavorites :=
            some (dedupFirst (currentOf mf ++ mfs.flatMap candidatesOf)) } := by
  simp [addAction, mkAddReq, truthyS, hcid, hshop, hmfs, hfad, hmrg,
    findAccessDenied_none, hvr]

/-- Witness for the amended C9: the concrete ADD of the already-present
handle a reports one incoming candidate as added, zero-diff counts, and
the unchanged merged list. -/
theorem claim9_add_result_amended_witness :
    ("gid-1" : String) ≠ "" ∧ ("demo" : String) ≠ "" ∧
    ([exMfA] : List MetafieldInput) ≠ [] ∧
    findAccessDenied none = none ∧
    dedupFirst (currentOf (some exStoredA) ++ [exMfA].flatMap candidatesOf) ≠ [] ∧
    exVerifyOk.raises = false ∧
    (addAction (mkAddReq "gid-1" "demo" [exMfA]) true (.ok none (some exStoredA))
        (.ok none []) exVerifyOk).1
      = { success := true, status := 200,
          existingFavoritesCount := some (currentOf (some exStoredA)).length,
          newFavoritesAdded := some ([exMfA].flatMap candidatesOf).length,
          totalFavoritesCount :=
            some (dedupFirst (currentOf (some exStoredA) ++
              [exMfA].flatMap candidatesOf)).length,
          allFavorites :=
            some (dedupFirst (currentOf (some exStoredA) ++
              [exMfA].flatMap candidatesOf)) } :=
  ⟨by decide, by decide, by decide, by decide, by decide, by decide,
   claim9_add_result_amended "gid-1" "demo" [exMfA] none (some exStoredA)
     exVerifyOk (by decide) (by decide) (by decide) (by decide) (by decide)
     (by decide)⟩

/-- C6: on a REMOVE of a handle present in the decoded list, exactly the
occurrences equal to the target (exact string equality) are dropped; if
the remainder is empty the delete-mutation against the field's id is
issued (never a set-mutation) and the success response carries
deleted = true; if the remainder is non-empty the set-mutation with the
joined remainder is issued and deleted = false; the remainder is reported
as remainingFavorites. -/
theorem claim6_remove_semantics (cid handle shop mid v : String)
    (errs : Option (List GraphQLError)) (verify : VerifyOutcome)
    (hcid : cid ≠ "") (hhandle : handle ≠ "") (hshop : shop ≠ "")
    (hfad : findAccessDenied errs = none) (hv : v ≠ "")
    (hmem : (decode v).contains handle = true)
    (hvr : verify.raises = false) :
    (∀ x, x ∈ (decode v).filter (fun h => h != handle) ↔
        (x ∈ decode v ∧ x ≠ handle)) ∧
    ((decode v).filter (fun h => h != handle) = [] →
      (removeAction (mkRemReq cid handle shop) true
          (.ok errs (some { id := mid, value := some v }))
          (.ok none []) verify).2.mutation = some (.deleteField mid) ∧
      (removeAction (mkRemReq cid handle shop) true
          (.ok errs (some { id := mid, value := some v }))
          (.ok none []) verify).1.deleted = some true) ∧
    ((decode v).filter (fun h => h != handle) ≠ [] →
      (removeAction (mkRemReq cid handle shop) true
          (.ok errs (some { id := mid, value := some v }))
          (.ok none []) verify).2.mutation
        = some (.setFavorites
            (encode ((decode v).filter (fun h => h != handle)))) ∧
      (removeAction (mkRemReq cid handle shop) true
          (.ok errs (some { id := mid, value := some v }))
          (.ok none []) verify).1.deleted = some false) ∧
    (removeAction (mkRemReq cid handle shop) true
        (.ok errs (some { id := mid, value := some v }))
        (.ok none []) verify).1.remainingFavorites
      = some ((decode v).filter (fun h => h != handle)) := by
  have hmem2 : handle ∈ decode v := by
    simpa [List.contains, List.elem_eq_mem] using hmem
  refine ⟨?_, ?_, ?_, ?_⟩
  · intro x
    simp [List.mem_filter, bne_iff_ne]
  · intro hup
    have hall : ∀ a ∈ decode v, a = handle := by
      simpa [List.filter_eq_nil_iff, bne_iff_ne] using hup
    simp [removeAction, mkRemReq, truthyS, hcid, hhandle, hshop, hfad, hv,
      hmem2, findAccessDenied_none, hvr, hall]
    exact hall
  · intro hup
    have hall : ¬ ∀ a ∈ decode v, a = handle := by
      simpa [List.filter_eq_nil_iff, bne_iff_ne] using hup
    simp [removeAction, mkRemReq, truthyS, hcid, hhandle, hshop, hfad, hv,
      hmem2, findAccessDenied_none, hvr, hall]
  · simp [removeAction, mkRemReq, truthyS, hcid, hhandle, hshop, hfad, hv,
      hmem2, findAccessDenied_none, hvr]

/-- Witness for C6 at the concrete delete branch: removing a from the
stored value a empties the list, so the delete-mutation against the
field's id is issued and the response reports deleted = true. -/
theorem claim6_remove_semantics_witness :
    ("gid-1" : String) ≠ "" ∧ ("a" : String) ≠ "" ∧ ("demo" : String) ≠ "" ∧
    findAccessDenied none = none ∧ ("a" : String) ≠ "" ∧
    (decode "a").contains "a" = true ∧ exVerifyOk.raises = false ∧
    ((decode "a").filter (fun h => h != "a") = [] →
      (removeAction (mkRemReq "gid-1" "a" "demo") true
          (.ok none (some { id := "mf-1", value := some "a" }))
          (.ok none []) exVerifyOk).2.mutation = some (.deleteField "mf-1") ∧
      (removeAction (mkRemReq "gid-1" "a" "demo") true
          (.ok none (some { id := "mf-1", value := some "a" }))
          (.ok none []) exVerifyOk).1.deleted = some true) :=
  ⟨by decide, by decide, by decide, by decide, by decide, by decide,
   by decide,
   (claim6_remove_semantics "gid-1" "a" "demo" "mf-1" "a" none exVerifyOk
     (by decide) (by decide) (by decide) (by decide) (by decide) (by decide)
     (by decide)).2.1⟩

/-- C7: a REMOVE whose target handle is absent from the decoded current
list is answered with success false, HTTP 404, the error string of the
source, and the decoded current list for diagnosis; the trace shows the
read happened but no mutation of any kind was issued. -/
theorem claim7_remove_not_found (cid handle shop mid v : String)
    (errs : Option (List GraphQLError)) (write : WriteOutcome)
    (verify : VerifyOutcome)
    (hcid : cid ≠ "") (hhandle : handle ≠ "") (hshop : shop ≠ "")
    (hfad : findAccessDenied errs = none) (hv : v ≠ "")
    (hnot : (decode v).contains handle = false) :
    removeAction (mkRemReq cid handle shop) true
        (.ok errs (some { id := mid, value := some v })) write verify
      = ({ success := false, status := 404,
           error := some "Product handle not found in favorites",
           currentFavorites := some (decode v) },
         { readCalled := true }) := by
  have hnot2 : ¬ handle ∈ decode v := by
    simpa [List.contains, List.elem_eq_mem] using hnot
  simp [removeAction, mkRemReq, truthyS, hcid, hhandle, hshop, hfad, hv,
    hnot2]

/-- Witness for C7: removing the absent handle z from a store holding
a, b, c yields the 404 not-found response carrying the current list, with
no mutation in the trace. -/
theorem claim7_remove_not_found_witness :
    ("gid-1" : String) ≠ "" ∧ ("z" : String) ≠ "" ∧ ("demo" : String) ≠ "" ∧
    findAccessDenied none = none ∧ ("a\nb\nc" : String) ≠ "" ∧
    (decode "a\nb\nc").contains "z" = false ∧
    removeAction (mkRemReq "gid-1" "z" "demo") true
        (.ok none (some { id := "mf-1", value := some "a\nb\nc" }))
        exWriteOk exVerifyOk
      = ({ success := false, status := 404,
           error := some "Product handle not found in favorites",
           currentFavorites := some (decode "a\nb\nc") },
         { readCalled := true }) :=
  ⟨by decide, by decide, by decide, by decide, by decide, by decide,
   claim7_remove_not_found "gid-1" "z" "demo" "mf-1" "a\nb\nc" none
     exWriteOk exVerifyOk (by decide) (by decide) (by decide) (by decide)
     (by decide) (by decide)⟩

theorem findAccessDenied_isSome {errs : List GraphQLError} {e : GraphQLError}
    (he : e ∈ errs) (hp : isProtectedDataError e = true) :
    (findAccessDenied (some errs)).isSome = true := by
  simp [findAccessDenied, List.find?_isSome]
  exact ⟨e, he, hp⟩

/-- C1: whenever a store-reported error list (on the read or on the write
of an ADD or REMOVE) contains an entry whose code is ACCESS_DENIED with
the protected-customer-data message, the handler short-circuits to the
fixed access-policy response (success false, HTTP 403, fixed error and
remediation message), regardless of the other entries; when the denial is
on the read, the trace shows no mutation was attempted. -/
theorem claim1_access_policy_short_circuit :
    (∀ (cid shop : String) (mfs : List MetafieldInput)
        (errs : List GraphQLError) (e : GraphQLError)
        (mf : Option StoredMetafield) (write : WriteOutcome)
        (verify : VerifyOutcome), cid ≠ "" → shop ≠ "" → mfs ≠ [] →
        e ∈ errs → isProtectedDataError e = true →
        addAction (mkAddReq cid shop mfs) true (.ok (some errs) mf) write
            verify = (accessPolicyResponse, { readCalled := true })) ∧
    (∀ (cid shop : String) (mfs : List MetafieldInput)
        (errs0 : Option (List GraphQLError)) (mf : Option StoredMetafield)
        (werrs : List GraphQLError) (e : GraphQLError)
        (uerrs : List String) (verify : VerifyOutcome),
        cid ≠ "" → shop ≠ "" → mfs ≠ [] →
        findAccessDenied errs0 = none →
        dedupFirst (currentOf mf ++ mfs.flatMap candidatesOf) ≠ [] →
        e ∈ werrs → isProtectedDataError e = true →
        (addAction (mkAddReq cid shop mfs) true (.ok errs0 mf)
            (.ok (some werrs) uerrs) verify).1 = accessPolicyResponse) ∧
    (∀ (cid handle shop : String) (errs : List GraphQLError)
        (e : GraphQLError) (mf : Option StoredMetafield)
        (write : WriteOutcome) (verify : VerifyOutcome),
        cid ≠ "" → handle ≠ "" → shop ≠ "" →
        e ∈ errs → isProtectedDataError e = true →
        removeAction (mkRemReq cid handle shop) true (.ok (some errs) mf)
            write verify = (accessPolicyResponse, { readCalled := true })) ∧
    (∀ (cid handle shop mid v : String) (errs0 : Option (List GraphQLError))
        (werrs : List GraphQLError) (e : GraphQLError) (uerrs : List String)
        (verify : VerifyOutcome),
        cid ≠ "" → handle ≠ "" → shop ≠ "" →
        findAccessDenied errs0 = none → v ≠ "" →
        (decode v).contains handle = true →
        e ∈ werrs → isProtectedDataError e = true →
        (removeAction (mkRemReq cid handle shop) true
            (.ok errs0 (some { id := mid, value := some v }))
            (.ok (some werrs) uerrs) verify).1 = accessPolicyResponse) := by
  refine ⟨?_, ?_, ?_, ?_⟩
  · intro cid shop mfs errs e mf write verify hcid hshop hmfs he hp
    have hfs := findAccessDenied_isSome he hp
    simp [addAction, mkAddReq, truthyS, hcid, hshop, hmfs, hfs]
  · intro cid shop mfs errs0 mf werrs e uerrs verify hcid hshop hmfs hfad
      hmrg he hp
    have hfs := findAccessDenied_isSome he hp
    simp [addAction, mkAddReq, truthyS, hcid, hshop, hmfs, hfad, hmrg, hfs]
  · intro cid handle shop errs e mf write verify hcid hhandle hshop he hp
    have hfs := findAccessDenied_isSome he hp
    simp [removeAction, mkRemReq, truthyS, hcid, hhandle, hshop, hfs]
  · intro cid handle shop mid v errs0 werrs e uerrs verify hcid hhandle
      hshop hfad hv hmem he hp
    have hfs := findAccessDenied_isSome he hp
    have hmem2 : handle ∈ decode v := by
      simpa [List.contains, List.elem_eq_mem] using hmem
    simp [removeAction, mkRemReq, truthyS, hcid, hhandle, hshop, hfad, hv,
      hmem2, hfs]

/-- Witness for C1 at a read whose error list carries an unrelated error
before the protected-data denial: the ADD short-circuits to the fixed 403
response without attempting the write. -/
theorem claim1_access_policy_short_circuit_witness :
    ("gid-1" : String) ≠ "" ∧ ("demo" : String) ≠ "" ∧
    ([exMfA] : List MetafieldInput) ≠ [] ∧
    exAdErr ∈ [exOtherErr, exAdErr] ∧
    isProtectedDataError exAdErr = true ∧
    addAction (mkAddReq "gid-1" "demo" [exMfA]) true
        (.ok (some [exOtherErr, exAdErr]) (some exStoredA)) exWriteOk
        exVerifyOk = (accessPolicyResponse, { readCalled := true }) :=
  ⟨by decide, by decide, by decide, by decide, by decide,
   claim1_access_policy_short_circuit.1 "gid-1" "demo" [exMfA]
     [exOtherErr, exAdErr] exAdErr (some exStoredA) exWriteOk exVerifyOk
     (by decide) (by decide) (by decide) (by decide) (by decide)⟩

end ShopifyFav
